import Mathlib

/-!
Verification of the session-scoring core of the archery-club database
application (src/pages/score_entry.py and src/pages/recorder_approval.py).

The Python functions are embedded shallowly: the relational store is a record
of lists of rows, each page-level operation becomes a pure state transformer,
and the handful of Python / MySQL string primitives the code leans on
(`str.strip`, `str.upper`, `int(...)`, `UPPER(TRIM(...))`,
`CAST(... AS UNSIGNED)`) are modelled explicitly below.
-/

namespace ArcheryClub

/-! ## Python string primitives -/

/-- The whitespace characters removed by Python `str.strip()`
(space, tab, newline, carriage return, vertical tab, form feed). -/
def isPySpace (c : Char) : Bool :=
  c = ' ' || c = '\t' || c = '\n' || c = '\r' || c = '\x0b' || c = '\x0c'

/-- `str.strip()` on the underlying character list. -/
def pyStripList (l : List Char) : List Char :=
  ((l.dropWhile isPySpace).reverse.dropWhile isPySpace).reverse

/-- Python `str.strip()`. -/
def pyStrip (s : String) : String := ⟨pyStripList s.data⟩

/-- ASCII uppercasing of one character, as Python `str.upper()` acts on the
arrow-token alphabet (all tokens in this program are ASCII). -/
def pyCharUpper : Char → Char
  | 'a' => 'A' | 'b' => 'B' | 'c' => 'C' | 'd' => 'D' | 'e' => 'E' | 'f' => 'F'
  | 'g' => 'G' | 'h' => 'H' | 'i' => 'I' | 'j' => 'J' | 'k' => 'K' | 'l' => 'L'
  | 'm' => 'M' | 'n' => 'N' | 'o' => 'O' | 'p' => 'P' | 'q' => 'Q' | 'r' => 'R'
  | 's' => 'S' | 't' => 'T' | 'u' => 'U' | 'v' => 'V' | 'w' => 'W' | 'x' => 'X'
  | 'y' => 'Y' | 'z' => 'Z'
  | c => c

/-- Python `str.upper()`. -/
def pyUpper (s : String) : String := ⟨s.data.map pyCharUpper⟩

/-- Digit value of an ASCII digit. -/
def digitVal (c : Char) : Nat := c.toNat - 48

/-- Continuation of Python `int(str)` digit parsing: after one digit has been
read, the remainder must be a run of digits in which a single underscore may
separate two digits (Python allows `1_0` but not `_1`, `1_` or `1__0`). -/
def pyDigitsCore : List Char → Nat → Option Nat
  | [], acc => some acc
  | '_' :: c :: rest, acc =>
    if c.isDigit then pyDigitsCore rest (acc * 10 + digitVal c) else none
  | c :: rest, acc =>
    if c.isDigit then pyDigitsCore rest (acc * 10 + digitVal c) else none

/-- A non-empty digit run with Python underscore rules. -/
def pyDigits (l : List Char) : Option Nat :=
  match l with
  | c :: rest => if c.isDigit then pyDigitsCore rest (digitVal c) else none
  | [] => none

/-- Python `int(str)`: surrounding whitespace is stripped, an optional single
sign may precede a non-empty digit run (underscores allowed between digits);
anything else raises `ValueError`, modelled as `none`. -/
def pyInt (s : String) : Option Int :=
  match pyStripList s.data with
  | '+' :: rest => (pyDigits rest).map (fun n => (n : Int))
  | '-' :: rest => (pyDigits rest).map (fun n => -(n : Int))
  | l => (pyDigits l).map (fun n => (n : Int))

/-! ## Arrow value codec -/

/-- `_score_from_value` from src/pages/score_entry.py (lines 386-395):
`token = (value or "M").strip().upper()`; `"X"` scores 10, `"M"` scores 0,
otherwise `int(token)` with `ValueError` defaulting to 0. -/
def score_from_value (value : Option String) : Int :=
  let base := match value with
    | none => "M"
    | some s => if s = "" then "M" else s
  let token := pyUpper (pyStrip base)
  if token = "X" then 10
  else if token = "M" then 0
  else match pyInt token with
    | some n => n
    | none => 0

/-- `_score_from_arrow` from src/pages/recorder_approval.py (lines 87-104):
`if not a: return 0`; `a_upper = str(a).upper().strip()`; `"X"` scores 10,
`"M"` scores 0, otherwise `int(a_upper)` with any exception defaulting to 0. -/
def score_from_arrow (a : Option String) : Int :=
  match a with
  | none => 0
  | some s =>
    if s = "" then 0
    else
      let aUpper := pyStrip (pyUpper s)
      if aUpper = "X" then 10
      else if aUpper = "M" then 0
      else match pyInt aUpper with
        | some n => n
        | none => 0

/-! ## Commutation of `strip` and `upper`

`_score_from_value` strips then uppercases; `_score_from_arrow` uppercases
then strips.  The two normalisations coincide because uppercasing never
creates or destroys whitespace. -/

lemma isPySpace_pyCharUpper (c : Char) : isPySpace (pyCharUpper c) = isPySpace c := by
  unfold pyCharUpper
  split <;> rfl

lemma dropWhile_map_pyCharUpper (l : List Char) :
    (l.map pyCharUpper).dropWhile isPySpace = (l.dropWhile isPySpace).map pyCharUpper := by
  induction l with
  | nil => rfl
  | cons c l ih =>
    by_cases h : isPySpace c = true
    · simp [List.dropWhile_cons, isPySpace_pyCharUpper, h, ih]
    · simp [List.dropWhile_cons, isPySpace_pyCharUpper, h]

lemma pyStripList_map_pyCharUpper (l : List Char) :
    pyStripList (l.map pyCharUpper) = (pyStripList l).map pyCharUpper := by
  unfold pyStripList
  rw [dropWhile_map_pyCharUpper, ← List.map_reverse, dropWhile_map_pyCharUpper,
    List.map_reverse]

lemma pyStrip_pyUpper (s : String) : pyStrip (pyUpper s) = pyUpper (pyStrip s) :=
  congrArg String.mk (pyStripList_map_pyCharUpper s.data)

/-! ## The relational store

Rows of the tables the two pages touch: `session` (id, status), `end`,
`arrow`, `session_audit` and `competition_entry` (session_id, final_total).
Statuses are kept as the literal strings the code uses. -/

structure EndRow where
  id : Nat
  session_id : Nat
  round_range_id : Nat
  end_no : Nat
  deriving DecidableEq

structure ArrowRow where
  end_id : Nat
  arrow_no : Nat
  arrow_value : String
  deriving DecidableEq

structure AuditRow where
  session_id : Nat
  old_status : String
  new_status : String
  changed_by : Option Nat
  deriving DecidableEq

structure DB where
  sessions : List (Nat × String)
  ends : List EndRow
  arrows : List ArrowRow
  audit : List AuditRow
  entries : List (Nat × Int)
  deriving DecidableEq

/-- `UPDATE session SET status = :status WHERE id = :id`. -/
def setStatus (db : DB) (sid : Nat) (new : String) : DB :=
  { db with sessions := db.sessions.map (fun p => if p.1 = sid then (p.1, new) else p) }

/-- Status of a session as read back from the store. -/
def statusOf (db : DB) (sid : Nat) : Option String :=
  (db.sessions.find? (fun p => p.1 == sid)).map (·.2)

/-- `_update_session_status` from src/pages/recorder_approval.py (lines
158-175): runs the status `UPDATE`, then tries to insert a `session_audit`
row.  A failing audit insert (e.g. missing table, modelled by
`auditOk = false`) is caught and only produces a warning — the returned flag —
so the primary update is never rolled back and no exception escapes. -/
def update_session_status (auditOk : Bool) (recorder : Option Nat) (db : DB)
    (sid : Nat) (old new : String) : DB × Bool :=
  let db1 := setStatus db sid new
  if auditOk then
    ({ db1 with audit := db1.audit ++ [⟨sid, old, new, recorder⟩] }, false)
  else (db1, true)

/-! ## Python value equality for the bulk-protection test

`_render_group_approve_editor` (line 325) filters with
`s['status'] != ('Final', 'Confirmed')`: a `str` compared against a `tuple`.
Python equality between values of these distinct types is always `False`, so
the embedding carries the type tags. -/

inductive PyVal where
  | str : String → PyVal
  | tup : List PyVal → PyVal

mutual

def pyEq : PyVal → PyVal → Bool
  | .str a, .str b => a == b
  | .tup a, .tup b => pyEqList a b
  | .str _, .tup _ => false
  | .tup _, .str _ => false

def pyEqList : List PyVal → List PyVal → Bool
  | [], [] => true
  | x :: xs, y :: ys => pyEq x y && pyEqList xs ys
  | [], _ :: _ => false
  | _ :: _, [] => false

end

/-- The test `s['status'] == ('Final', 'Confirmed')` from
src/pages/recorder_approval.py line 326 (line 325 uses its negation). -/
def statusEqFinalConfirmedTuple (status : String) : Bool :=
  pyEq (.str status) (.tup [.str "Final", .str "Confirmed"])

/-! ## Bulk (group approve/revert) operation -/

/-- The fields of one entry of `sess_list` that the group editor consults. -/
structure SessionInfo where
  session_id : Nat
  status : String
  round_name : String
  av_number : String
  deriving DecidableEq

/-- The three counters of `_execute_group_approve_change`. -/
structure BulkCounts where
  success_count : Nat
  skipped_count : Nat
  error_count : Nat
  deriving DecidableEq

/-- `_execute_group_approve_change` from src/pages/recorder_approval.py
(lines 396-451): one pass over the selected sessions inside a per-item
`try`/`except`.  A session already at the target status is skipped before any
write; otherwise `_update_session_status` runs — `updateFails` models its
primary `UPDATE` raising for that session id, which the `except` turns into an
error count while the loop continues.  Audit failures are swallowed inside
`_update_session_status` and so can never reach the `except`. -/
def execGroupStep (auditOk : Bool) (recorder : Option Nat)
    (updateFails : Nat → Bool) (newStatus : String) (acc : DB × BulkCounts)
    (s : SessionInfo) : DB × BulkCounts :=
  if s.status = newStatus then
    (acc.1, { acc.2 with skipped_count := acc.2.skipped_count + 1 })
  else if updateFails s.session_id then
    (acc.1, { acc.2 with error_count := acc.2.error_count + 1 })
  else
    ((update_session_status auditOk recorder acc.1 s.session_id s.status newStatus).1,
      { acc.2 with success_count := acc.2.success_count + 1 })

def execute_group_approve_change (auditOk : Bool) (recorder : Option Nat)
    (updateFails : Nat → Bool) (db : DB) (sessions : List SessionInfo)
    (newStatus : String) : DB × BulkCounts :=
  sessions.foldl (execGroupStep auditOk recorder updateFails newStatus) (db, ⟨0, 0, 0⟩)

/-- Python `str.lower()` restricted to ASCII, mirroring `pyCharUpper`. -/
def pyCharLower : Char → Char
  | 'A' => 'a' | 'B' => 'b' | 'C' => 'c' | 'D' => 'd' | 'E' => 'e' | 'F' => 'f'
  | 'G' => 'g' | 'H' => 'h' | 'I' => 'i' | 'J' => 'j' | 'K' => 'k' | 'L' => 'l'
  | 'M' => 'm' | 'N' => 'n' | 'O' => 'o' | 'P' => 'p' | 'Q' => 'q' | 'R' => 'r'
  | 'S' => 's' | 'T' => 't' | 'U' => 'u' | 'V' => 'v' | 'W' => 'w' | 'X' => 'x'
  | 'Y' => 'y' | 'Z' => 'z'
  | c => c

def pyLower (s : String) : String := ⟨s.data.map pyCharLower⟩

def listStartsWith : List Char → List Char → Bool
  | [], _ => true
  | _ :: _, [] => false
  | a :: xs, b :: ys => a == b && listStartsWith xs ys

/-- Python `needle in hay` on strings (substring containment). -/
def listHasSub (needle : List Char) : List Char → Bool
  | [] => needle.isEmpty
  | c :: rest => listStartsWith needle (c :: rest) || listHasSub needle rest

/-- The filter block of `_render_group_approve_editor` (lines 313-318):
empty multiselects / empty text input (Python falsy) disable that criterion. -/
def groupFilter (sessList : List SessionInfo) (statusFilter roundFilter : List String)
    (avFilter : String) : List SessionInfo :=
  sessList.filter (fun s =>
    (statusFilter.isEmpty || statusFilter.contains s.status) &&
    (roundFilter.isEmpty || roundFilter.contains s.round_name) &&
    (avFilter == "" || listHasSub (pyLower avFilter).data (pyLower s.av_number).data))

/-- `_render_group_approve_editor` from src/pages/recorder_approval.py (lines
273-393): filter, partition into editable/protected (after the competition
end date everything is protected; otherwise the tuple-typed comparison of
line 325 decides), early-return when nothing is editable, and — when the
confirmed Apply button is pressed (`applyClicked`) — run the bulk change over
the editable sessions.  `none` means no bulk change was executed. -/
def render_group_approve_editor (auditOk : Bool) (recorder : Option Nat)
    (updateFails : Nat → Bool) (db : DB) (today compEnd : Int)
    (sessList : List SessionInfo) (statusFilter roundFilter : List String)
    (avFilter : String) (newStatus : String) (applyClicked : Bool) :
    DB × Option BulkCounts :=
  let filtered := groupFilter sessList statusFilter roundFilter avFilter
  let editable :=
    if today > compEnd then []
    else filtered.filter (fun s => !statusEqFinalConfirmedTuple s.status)
  if filtered.isEmpty then (db, none)
  else if editable.isEmpty then (db, none)
  else if applyClicked then
    let r := execute_group_approve_change auditOk recorder updateFails db editable newStatus
    (r.1, some r.2)
  else (db, none)

/-! ## Single-session status editor -/

/-- `_render_status_editor` from src/pages/recorder_approval.py (lines
235-266): when `today > comp_end` the editor only shows a lock warning (no
Apply button exists), returning the store untouched and no message.
Otherwise pressing Apply always calls `_update_session_status` — also when
the selected status equals the current one — and stores a success message. -/
def render_status_editor (auditOk : Bool) (recorder : Option Nat) (db : DB)
    (sessionId : Nat) (status newStatus : String) (today compEnd : Int) :
    DB × Option String :=
  if today > compEnd then (db, none)
  else if newStatus ≠ status then
    ((update_session_status auditOk recorder db sessionId status newStatus).1,
      some ("Status updated from " ++ status ++ " to " ++ newStatus))
  else
    ((update_session_status auditOk recorder db sessionId status newStatus).1,
      some ("Status has been updated to " ++ newStatus))

/-! ## Arrow storage (score_entry.py) -/

/-- Stable sort by `arrow_no`, modelling the `ORDER BY arrow_no` of the
arrow-fetching queries. -/
def insertByNo (a : ArrowRow) : List ArrowRow → List ArrowRow
  | [] => [a]
  | b :: l => if a.arrow_no ≤ b.arrow_no then a :: b :: l else b :: insertByNo a l

def sortByArrowNo : List ArrowRow → List ArrowRow
  | [] => []
  | a :: l => insertByNo a (sortByArrowNo l)

/-- `_fetch_end_id` from src/pages/score_entry.py (lines 216-221). -/
def fetch_end_id (db : DB) (sid rid eno : Nat) : Option Nat :=
  (db.ends.find? (fun e =>
    e.session_id == sid && e.round_range_id == rid && e.end_no == eno)).map (·.id)

/-- Fresh id handed out by the store on `INSERT INTO end`, modelling the
auto-increment primary key. -/
def nextEndId (db : DB) : Nat := (db.ends.map (·.id)).foldl max 0 + 1

/-- `_upsert_end` from src/pages/score_entry.py (lines 237-253): resolve (or
insert) the `end` row, `DELETE` every arrow of that end, then re-insert one
arrow row per value with `arrow_no` = 1, 2, ... (`enumerate(arrows, start=1)`). -/
def upsert_end (db : DB) (sid rid eno : Nat) (arrows : List String) : DB :=
  let p : DB × Nat :=
    match fetch_end_id db sid rid eno with
    | some i => (db, i)
    | none =>
      let i := nextEndId db
      ({ db with ends := db.ends ++ [⟨i, sid, rid, eno⟩] }, i)
  let db1 := p.1
  let endId := p.2
  let kept := db1.arrows.filter (fun a => !(a.end_id == endId))
  { db1 with arrows := kept ++ arrows.enum.map (fun iv => ⟨endId, iv.1 + 1, iv.2⟩) }

/-- `_fetch_arrow_values` from src/pages/score_entry.py (lines 224-234): start
from six `"M"` defaults and overwrite slot `arrow_no - 1` for every fetched row
with `arrow_no` between 1 and 6; a NULL value (modelled as `""`, Python falsy)
reads back as `"M"`. -/
def fetch_arrow_values (db : DB) (endId : Nat) : List String :=
  let rows := sortByArrowNo (db.arrows.filter (fun a => a.end_id == endId))
  rows.foldl
    (fun values row =>
      if 1 ≤ row.arrow_no && row.arrow_no ≤ 6 then
        values.set (row.arrow_no - 1)
          (if row.arrow_value = "" then "M" else row.arrow_value)
      else values)
    (List.replicate 6 "M")

/-! ## Scoring aggregation -/

/-- MySQL `TRIM` (default form removes leading and trailing spaces only). -/
def sqlTrim (s : String) : String :=
  ⟨((s.data.dropWhile (· == ' ')).reverse.dropWhile (· == ' ')).reverse⟩

/-- MySQL `UPPER` on the ASCII token alphabet. -/
def sqlUpper (s : String) : String := ⟨s.data.map pyCharUpper⟩

def digitsPfxVal (l : List Char) : Nat :=
  (l.takeWhile Char.isDigit).foldl (fun n c => n * 10 + digitVal c) 0

/-- MySQL `CAST(expr AS UNSIGNED)` on a string: leading spaces are skipped, an
optional sign precedes the longest leading digit run, the remainder is dropped
(with a warning), and negative values wrap modulo 2^64.  Arrow tokens only
exercise the plain digit-run case. -/
def mysqlCastUnsigned (s : String) : Int :=
  let l := s.data.dropWhile isPySpace
  match l with
  | '-' :: rest => ((2 : Int) ^ 64 - Int.ofNat (digitsPfxVal rest % 2 ^ 64)) % (2 : Int) ^ 64
  | '+' :: rest => Int.ofNat (digitsPfxVal rest % 2 ^ 64)
  | _ => Int.ofNat (digitsPfxVal l % 2 ^ 64)

/-- The `CASE` expression of `_compute_session_total` (both pages use the same
SQL): `X` → 10, `M` → 0 after `UPPER(TRIM(...))`, otherwise
`CAST(arrow_value AS UNSIGNED)` on the raw value. -/
def sql_arrow_score (v : String) : Int :=
  let t := sqlUpper (sqlTrim v)
  if t = "X" then 10
  else if t = "M" then 0
  else mysqlCastUnsigned v

/-- `_compute_session_total` from src/pages/score_entry.py (lines 256-270) and
recorder_approval.py (lines 134-151): `SUM` of the `CASE` scores over the
join `arrow a JOIN end e ON e.id = a.end_id WHERE e.session_id = :sid`
(each arrow/end row pair satisfying the join condition contributes once);
`SUM` of the empty set is NULL, which the Python wrapper turns into 0. -/
def compute_session_total (db : DB) (sid : Nat) : Int :=
  (db.arrows.map (fun a =>
    (db.ends.map (fun e =>
      if a.end_id = e.id ∧ e.session_id = sid then sql_arrow_score a.arrow_value
      else 0)).sum)).sum

/-- The end-total of src/pages/score_entry.py line 837:
`sum(_score_from_value(val) for val in arrow_values)`. -/
def end_total (vals : List String) : Int :=
  (vals.map (fun v => score_from_value (some v))).sum

/-- The selectable arrow tokens (`ARROW_CHOICES` of score_entry.py line 23 and
`choices` of recorder_approval.py line 198). -/
def ARROW_CHOICES : List String :=
  ["X", "10", "9", "8", "7", "6", "5", "4", "3", "2", "1", "M"]

/-! ## Recorder arrow editor -/

/-- `UPDATE arrow SET arrow_value = :value WHERE end_id = :end_id AND arrow_no = :arrow_no`. -/
def updateArrowValue (db : DB) (endId no : Nat) (v : String) : DB :=
  { db with arrows := db.arrows.map (fun a =>
      if a.end_id == endId && a.arrow_no == no then { a with arrow_value := v } else a) }

/-- The persistence loop of `_render_arrow_editor` (lines 214-225): slot `i`
is an `UPDATE` when the end already had at least `i + 1` fetched rows,
otherwise an `INSERT`. -/
def applyArrowEdits (db : DB) (endId nrows : Nat) (newVals : List String) : DB :=
  newVals.enum.foldl
    (fun db iv =>
      if iv.1 < nrows then updateArrowValue db endId (iv.1 + 1) iv.2
      else { db with arrows := db.arrows ++ [⟨endId, iv.1 + 1, iv.2⟩] })
    db

/-- What one disabled/enabled arrow selectbox shows for a stored value: values
outside the choice list fall back to the last choice, `"M"`
(recorder_approval.py line 203). -/
def widgetShown (cur : String) : String :=
  if ARROW_CHOICES.contains cur then cur else "M"

/-- Padding loop of `_render_arrow_editor` (lines 192-193): extend the fetched
values with `"M"` up to length 6. -/
def padToSixM (l : List String) : List String :=
  l ++ List.replicate (6 - l.length) "M"

/-- `_render_arrow_editor` from src/pages/recorder_approval.py (lines
183-228): fetch the end's arrows ordered by `arrow_no`, pad to six, render six
selectboxes — disabled when `locked` (the source's `protected` flag,
`today > comp_end`), in which case each widget shows the stored value —
and persist per-slot UPDATE/INSERT only when not locked and something
changed.  Returns the store and the six displayed values. -/
def render_arrow_editor (db : DB) (endId : Nat) (locked : Bool)
    (userVals : List String) : DB × List String :=
  let rows := sortByArrowNo (db.arrows.filter (fun a => a.end_id == endId))
  let arrowVals := padToSixM (rows.map (·.arrow_value))
  let newVals := (List.range 6).map (fun i =>
    if locked then widgetShown (arrowVals.getD i "M") else userVals.getD i "M")
  let db1 :=
    if !locked && newVals ≠ arrowVals then applyArrowEdits db endId rows.length newVals
    else db
  (db1, newVals)

/-- The protection predicate of `_render_score_editor` /
`_render_status_editor` in recorder_approval.py: `protected = today > comp_end`. -/
def compProtected (today compEnd : Int) : Bool := today > compEnd

/-! ## Archer-side navigator (score_entry.py) -/

/-- The per-request editor state bag (`st.session_state["score_entry_editor"]`). -/
structure EditorState where
  session_id : Nat
  range_idx : Nat
  end_no : Nat
  deriving DecidableEq

/-- `_get_editor_state` from src/pages/score_entry.py (lines 353-362): when the
stored bag belongs to a different session (or nothing is stored) it is reset
to `range_idx = 0`, `end_no = 1`; otherwise it is kept as-is (the
`setdefault` calls only matter for a malformed bag). -/
def get_editor_state (prev : Option EditorState) (sid : Nat) : EditorState :=
  match prev with
  | some st => if st.session_id == sid then st else ⟨sid, 0, 1⟩
  | none => ⟨sid, 0, 1⟩

/-- `_update_competition_final_total` from src/pages/score_entry.py (lines
398-404): cache the recomputed session total on the competition entry. -/
def update_competition_final_total (db : DB) (sid : Nat) : DB :=
  { db with entries := db.entries.map (fun p =>
      if p.1 == sid then (p.1, compute_session_total db sid) else p) }

inductive NavDirection where
  | prev
  | next
  | next_range
  | submit
  deriving DecidableEq

/-- `_nav_callback` from src/pages/score_entry.py (lines 704-744): first the
six widget values of the current end are upserted when the session is
editable; then `prev`/`next` move `end_no` clamped to `[1, max_ends]`,
`next_range` advances `range_idx` and resets `end_no` to 1, and `submit` runs
`UPDATE session SET status = 'Final'` and refreshes the cached final total. -/
def nav_callback (sid rid currentEnd maxEnds : Nat) (widgetVals : List String)
    (st : EditorState) (db : DB) (editable : Bool) (d : NavDirection) :
    EditorState × DB :=
  let db1 := if editable then upsert_end db sid rid currentEnd widgetVals else db
  match d with
  | .prev => ({ st with end_no := max 1 (currentEnd - 1) }, db1)
  | .next => ({ st with end_no := min maxEnds (currentEnd + 1) }, db1)
  | .next_range => ({ st with range_idx := st.range_idx + 1, end_no := 1 }, db1)
  | .submit =>
    let db2 := setStatus db1 sid "Final"
    (st, update_competition_final_total db2 sid)

/-- The forward-navigation button rendered by `_render_score_editor`
(score_entry.py lines 871-934): `is_last_end = selected_end >= ends_per_range`,
`is_last_range = range_idx >= len(ranges) - 1`; last end of last range shows
Submit, last end of an earlier range shows Next Range, otherwise Next. -/
def forward_direction (selectedEnd endsPerRange rangeIdx numRanges : Nat) :
    NavDirection :=
  if selectedEnd ≥ endsPerRange then
    if rangeIdx ≥ numRanges - 1 then .submit else .next_range
  else .next

/-! ## Spec-side codec and sample stores -/

/-- The codec as the (amended) specification words it, for comparison with the
two source implementations: normalise (`None`/empty → `"M"`, strip whitespace,
uppercase); `X` → 10, `M` → 0, a token accepted by Python `int` → its integer
value, any other token → 0. -/
def score_of_spec (value : Option String) : Int :=
  let token := pyUpper (pyStrip (match value with
    | none => "M"
    | some s => if s = "" then "M" else s))
  if token = "X" then 10
  else if token = "M" then 0
  else (pyInt token).getD 0

/-- A small populated store used by concrete witnesses: one `Final` session
with one end of two recorded arrows and a competition entry. -/
def dbSample : DB :=
  ⟨[(1, "Final")], [⟨5, 1, 2, 1⟩], [⟨5, 1, "9"⟩, ⟨5, 2, "X"⟩], [], [(1, 0)]⟩

/-- Store for the resume counterexample: session 1 has End 1 of its single
range (round_range id 10, `ends_per_range` = 2) fully recorded with six
non-default arrows; End 2 is unrecorded, so k = 1 < 2 total ends. -/
def dbResume : DB :=
  ⟨[(1, "Preliminary")], [⟨100, 1, 10, 1⟩],
    [⟨100, 1, "9"⟩, ⟨100, 2, "9"⟩, ⟨100, 3, "9"⟩,
     ⟨100, 4, "9"⟩, ⟨100, 5, "9"⟩, ⟨100, 6, "9"⟩], [], []⟩

/-- Store with two ends of valid arrow tokens, for the aggregation witness. -/
def dbTotals : DB :=
  ⟨[(1, "Preliminary")], [⟨100, 1, 10, 1⟩, ⟨101, 1, 10, 2⟩],
    [⟨100, 1, "X"⟩, ⟨100, 2, "9"⟩, ⟨100, 3, "9"⟩,
     ⟨100, 4, "8"⟩, ⟨100, 5, "M"⟩, ⟨100, 6, "7"⟩,
     ⟨101, 1, "10"⟩, ⟨101, 2, "M"⟩], [], [(1, 0)]⟩

/-! # Theorems -/

lemma score_from_value_eq_arrow (v : Option String) :
    score_from_value v = score_from_arrow v := by
  match v with
  | none => rfl
  | some s =>
    by_cases hs : s = ""
    · subst hs; rfl
    · unfold score_from_value score_from_arrow
      simp only [hs, if_false, pyStrip_pyUpper]

lemma score_from_value_eq_spec (v : Option String) :
    score_from_value v = score_of_spec v := by
  match v with
  | none => rfl
  | some s =>
    simp only [score_from_value, score_of_spec]
    cases h : pyInt (pyUpper (pyStrip (if s = "" then "M" else s))) <;> simp [h]

/-- C3 (amended): the two scoring implementations agree on every input and
both realise the spec codec: X → 10, M → 0, a token Python `int` accepts → its
integer value, any other token (including empty and None) → 0; in particular
the twelve selectable tokens score 10, 10, 9, ..., 1, 0. -/
theorem codec_agree_and_refine :
    (∀ v, score_from_value v = score_from_arrow v) ∧
    (∀ v, score_from_value v = score_of_spec v) ∧
    ARROW_CHOICES.map (fun t => score_from_value (some t)) =
      [10, 10, 9, 8, 7, 6, 5, 4, 3, 2, 1, 0] ∧
    score_from_value none = 0 ∧ score_from_value (some "") = 0 ∧
    score_from_value (some " x ") = 10 :=
  ⟨score_from_value_eq_arrow, score_from_value_eq_spec, by decide, by decide, by decide,
    by decide⟩

/-- C3 counterexample: the claim sends every token other than X, M and the
digit strings "1".."10" to 0, but both implementations score "12" as 12 (the
`int(...)` fallback parses any integer literal). -/
theorem codec_claim_counterexample :
    score_from_value (some "12") = 12 ∧ score_from_arrow (some "12") = 12 ∧
    score_from_value (some "-3") = -3 ∧ (12 : Int) ≠ 0 := by
  decide

/-- C1: the code does not reject Final/Confirmed → Preliminary transitions.
The single-session status editor applies whatever status is selected, and in
the bulk editor the protection test of line 325 compares a status string with
a tuple — false for every string — so every filtered session is treated as
editable and the revert is applied and counted as updated.  (Evaluation of
the embedded code at the failing input of the claim.) -/
theorem revert_to_preliminary_applied :
    (∀ st : String, statusEqFinalConfirmedTuple st = false) ∧
    (render_status_editor true (some 7) ⟨[(1, "Confirmed")], [], [], [], []⟩
        1 "Confirmed" "Preliminary" 5 9).1.sessions = [(1, "Preliminary")] ∧
    ((render_group_approve_editor true (some 7) (fun _ => false)
        ⟨[(1, "Confirmed")], [], [], [], []⟩ 5 9
        [⟨1, "Confirmed", "WA 900", "AV001"⟩] ["Confirmed"] [] ""
        "Preliminary" true).1.sessions = [(1, "Preliminary")] ∧
      (render_group_approve_editor true (some 7) (fun _ => false)
        ⟨[(1, "Confirmed")], [], [], [], []⟩ 5 9
        [⟨1, "Confirmed", "WA 900", "AV001"⟩] ["Confirmed"] [] ""
        "Preliminary" true).2 = some ⟨1, 0, 0⟩) :=
  ⟨fun _ => rfl, by decide, by decide, by decide⟩

/-- C2: once the linked competition has ended (`comp_end < today`), every
arrow-value write and every status write on the recorder page is rejected —
the arrow editor, the status editor and the group editor all return the store
unchanged — while reads still succeed: the locked arrow editor displays the
stored values, and arrow fetches and session totals are unaffected. -/
theorem locked_competition_rejects_writes (db : DB) (today compEnd : Int)
    (h : compEnd < today) (endId sessionId : Nat) (userVals : List String)
    (auditOk : Bool) (recorder : Option Nat) (status newStatus : String)
    (updateFails : Nat → Bool) (sessList : List SessionInfo)
    (sf rf : List String) (af : String) (applyClicked : Bool) :
    (render_arrow_editor db endId (compProtected today compEnd) userVals).1 = db ∧
    (render_arrow_editor db endId (compProtected today compEnd) userVals).2 =
      (List.range 6).map (fun i => widgetShown
        ((padToSixM ((sortByArrowNo (db.arrows.filter (fun a => a.end_id == endId))).map
          (·.arrow_value))).getD i "M")) ∧
    render_status_editor auditOk recorder db sessionId status newStatus today compEnd =
      (db, none) ∧
    render_group_approve_editor auditOk recorder updateFails db today compEnd
      sessList sf rf af newStatus applyClicked = (db, none) ∧
    fetch_arrow_values
      ((render_arrow_editor db endId (compProtected today compEnd) userVals).1) endId =
      fetch_arrow_values db endId ∧
    compute_session_total
      ((render_status_editor auditOk recorder db sessionId status newStatus today compEnd).1)
      sessionId = compute_session_total db sessionId := by
  have hp : compProtected today compEnd = true := by
    simp only [compProtected, gt_iff_lt, decide_eq_true_eq]
    exact h
  have h1 : (render_arrow_editor db endId (compProtected today compEnd) userVals).1 = db := by
    rw [hp]; simp [render_arrow_editor]
  have h2 : (render_arrow_editor db endId (compProtected today compEnd) userVals).2 =
      (List.range 6).map (fun i => widgetShown
        ((padToSixM ((sortByArrowNo (db.arrows.filter (fun a => a.end_id == endId))).map
          (·.arrow_value))).getD i "M")) := by
    rw [hp]; simp [render_arrow_editor]
  have h3 : render_status_editor auditOk recorder db sessionId status newStatus today compEnd =
      (db, none) := by
    unfold render_status_editor
    rw [if_pos h]
  have h4 : render_group_approve_editor auditOk recorder updateFails db today compEnd
      sessList sf rf af newStatus applyClicked = (db, none) := by
    simp only [render_group_approve_editor]
    split
    · rfl
    · split
      · rfl
      · next hne2 =>
          exact absurd rfl hne2
  refine ⟨h1, h2, h3, h4, ?_, ?_⟩
  · rw [h1]
  · rw [h3]

/-- Concrete instance of the competition-lock theorem: an ended competition
(end date 3, today 10) with a write attempt on the sample store. -/
theorem locked_competition_rejects_writes_witness :
    (3 : Int) < 10 ∧
    ((render_arrow_editor dbSample 5 (compProtected 10 3)
        ["X", "X", "X", "X", "X", "X"]).1 = dbSample ∧
      (render_arrow_editor dbSample 5 (compProtected 10 3)
          ["X", "X", "X", "X", "X", "X"]).2 =
        (List.range 6).map (fun i => widgetShown
          ((padToSixM ((sortByArrowNo (dbSample.arrows.filter (fun a => a.end_id == 5))).map
            (·.arrow_value))).getD i "M")) ∧
      render_status_editor true (some 7) dbSample 1 "Final" "Preliminary" 10 3 =
        (dbSample, none) ∧
      render_group_approve_editor true (some 7) (fun _ => false) dbSample 10 3
        [⟨1, "Final", "WA 900", "AV001"⟩] [] [] "" "Preliminary" true = (dbSample, none) ∧
      fetch_arrow_values
        ((render_arrow_editor dbSample 5 (compProtected 10 3)
          ["X", "X", "X", "X", "X", "X"]).1) 5 = fetch_arrow_values dbSample 5 ∧
      compute_session_total
        ((render_status_editor true (some 7) dbSample 1 "Final" "Preliminary" 10 3).1) 1 =
        compute_session_total dbSample 1) :=
  ⟨by decide,
    locked_competition_rejects_writes dbSample 10 3 (by decide) 5 1
      ["X", "X", "X", "X", "X", "X"] true (some 7) "Final" "Preliminary"
      (fun _ => false) [⟨1, "Final", "WA 900", "AV001"⟩] [] [] "" true⟩

/-- C4 counterexample: in `dbResume`, End 1 of the single range (2 ends in the
round) is fully recorded with six non-default arrows (k = 1 < 2), so the claim
requires resume to land on End 2; `_get_editor_state` nevertheless resets the
position to `range_idx = 0`, `end_no = 1`. -/
theorem resume_claim_counterexample :
    fetch_arrow_values dbResume 100 = ["9", "9", "9", "9", "9", "9"] ∧
    (∀ v ∈ fetch_arrow_values dbResume 100, v ≠ "M") ∧
    get_editor_state none 1 = ⟨1, 0, 1⟩ ∧
    (get_editor_state none 1).end_no ≠ 2 := by
  decide

/-- C4 (amended): resuming a session always positions the editor at the first
end of the first range (`range_idx = 0`, `end_no = 1`) regardless of which
ends are already recorded; only a stored editor state that already belongs to
the same session keeps its previous position. -/
theorem resume_resets_to_start (sid : Nat) (st : EditorState) :
    get_editor_state none sid = ⟨sid, 0, 1⟩ ∧
    (st.session_id ≠ sid → get_editor_state (some st) sid = ⟨sid, 0, 1⟩) ∧
    get_editor_state (some st) st.session_id = st := by
  refine ⟨rfl, ?_, ?_⟩
  · intro h
    simp [get_editor_state, h]
  · simp [get_editor_state]

/-- Concrete instance of the resume-reset theorem: a stored state for session
3 at range 1, end 4 is discarded when session 2 is resumed. -/
theorem resume_resets_to_start_witness :
    (⟨3, 1, 4⟩ : EditorState).session_id ≠ 2 ∧
    get_editor_state (some ⟨3, 1, 4⟩) 2 = ⟨2, 0, 1⟩ :=
  ⟨by decide, (resume_resets_to_start 2 ⟨3, 1, 4⟩).2.1 (by decide)⟩

lemma execGroup_counts (auditOk : Bool) (recorder : Option Nat)
    (fails : Nat → Bool) (t : String) (l : List SessionInfo) :
    ∀ (db : DB) (c : BulkCounts),
    (l.foldl (execGroupStep auditOk recorder fails t) (db, c)).2 =
      ⟨c.success_count + l.countP (fun s => !(s.status == t) && !fails s.session_id),
       c.skipped_count + l.countP (fun s => s.status == t),
       c.error_count + l.countP (fun s => !(s.status == t) && fails s.session_id)⟩ := by
  induction l with
  | nil => intro db c; simp
  | cons s l ih =>
    intro db c
    rw [List.foldl_cons]
    by_cases h1 : s.status = t
    · have hstep : execGroupStep auditOk recorder fails t (db, c) s =
          (db, ⟨c.success_count, c.skipped_count + 1, c.error_count⟩) := by
        simp [execGroupStep, h1]
      rw [hstep, ih]
      simp [List.countP_cons, h1, BulkCounts.mk.injEq]; omega
    · by_cases h2 : fails s.session_id = true
      · have hstep : execGroupStep auditOk recorder fails t (db, c) s =
            (db, ⟨c.success_count, c.skipped_count, c.error_count + 1⟩) := by
          simp [execGroupStep, h1, h2]
        rw [hstep, ih]
        simp [List.countP_cons, h1, h2, BulkCounts.mk.injEq]; omega
      · have hstep : execGroupStep auditOk recorder fails t (db, c) s =
            ((update_session_status auditOk recorder db s.session_id s.status t).1,
              ⟨c.success_count + 1, c.skipped_count, c.error_count⟩) := by
          simp [execGroupStep, h1, h2]
        rw [hstep, ih]
        simp [List.countP_cons, h1, h2, BulkCounts.mk.injEq]; omega

lemma execGroup_db_all_skipped (auditOk : Bool) (recorder : Option Nat)
    (fails : Nat → Bool) (t : String) (l : List SessionInfo)
    (h : ∀ s ∈ l, s.status = t) :
    ∀ (db : DB) (c : BulkCounts),
    (l.foldl (execGroupStep auditOk recorder fails t) (db, c)).1 = db := by
  induction l with
  | nil => intro db c; rfl
  | cons s l ih =>
    intro db c
    have hs : s.status = t := h s (by simp)
    simp only [List.foldl_cons, execGroupStep, if_pos hs]
    exact ih (fun x hx => h x (by simp [hx])) db _

lemma map_id_of_mem {α : Type} (f : α → α) (l : List α) (h : ∀ x ∈ l, f x = x) :
    l.map f = l := by
  induction l with
  | nil => rfl
  | cons a l ih =>
    rw [List.map_cons, h a (by simp), ih (fun x hx => h x (by simp [hx]))]

/-- C5 (amended): in the bulk operation a target equal to the current status
is an untouched store counted once as skipped, never as updated or failed;
the single-session status editor, by contrast, still executes the status
`UPDATE` (leaving the stored status value unchanged) and writes an audit
record, and reports the action as an update, not a skip. -/
theorem same_status_transition (auditOk : Bool) (recorder : Option Nat)
    (fails : Nat → Bool) (db : DB) (l : List SessionInfo) (target : String)
    (hall : ∀ s ∈ l, s.status = target)
    (sid : Nat) (st : String) (today compEnd : Int) (hlock : ¬ today > compEnd)
    (hst : ∀ p ∈ db.sessions, p.1 = sid → p.2 = st) :
    execute_group_approve_change auditOk recorder fails db l target =
      (db, ⟨0, l.length, 0⟩) ∧
    (render_status_editor true recorder db sid st st today compEnd).1.sessions =
      db.sessions ∧
    (render_status_editor true recorder db sid st st today compEnd).1.audit =
      db.audit ++ [⟨sid, st, st, recorder⟩] ∧
    (render_status_editor true recorder db sid st st today compEnd).2 =
      some ("Status has been updated to " ++ st) := by
  have hse : render_status_editor true recorder db sid st st today compEnd =
      ((update_session_status true recorder db sid st st).1,
        some ("Status has been updated to " ++ st)) := by
    unfold render_status_editor
    rw [if_neg hlock, if_neg (by simp)]
  refine ⟨?_, ?_, ?_, ?_⟩
  · unfold execute_group_approve_change
    have hfst := execGroup_db_all_skipped auditOk recorder fails target l hall db ⟨0, 0, 0⟩
    have hsnd := execGroup_counts auditOk recorder fails target l db ⟨0, 0, 0⟩
    have hz : l.countP (fun s => !(s.status == target) && !fails s.session_id) = 0 :=
      List.countP_eq_zero.mpr (fun s hs => by simp [hall s hs])
    have hz2 : l.countP (fun s => !(s.status == target) && fails s.session_id) = 0 :=
      List.countP_eq_zero.mpr (fun s hs => by simp [hall s hs])
    have hlen : l.countP (fun s => s.status == target) = l.length :=
      List.countP_eq_length.mpr (fun s hs => by simp [hall s hs])
    refine Prod.ext ?_ ?_
    · rw [hfst]
    · rw [hsnd, hz, hz2, hlen]
      simp
  · rw [hse]
    show (setStatus db sid st).sessions = db.sessions
    exact map_id_of_mem _ _ (fun p hp => by
      by_cases hp1 : p.1 = sid
      · rw [if_pos hp1, ← hst p hp hp1]
      · rw [if_neg hp1])
  · rw [hse]; rfl
  · rw [hse]

/-- C5 counterexample: applying the current status in the single-session
status editor is not a skip: the store changes (an audit row with
`old = new = "Final"` is written) and the editor reports the action as an
update. -/
theorem same_status_claim_counterexample :
    (render_status_editor true (some 7) ⟨[(1, "Final")], [], [], [], []⟩
        1 "Final" "Final" 0 0).1 ≠ ⟨[(1, "Final")], [], [], [], []⟩ ∧
    (render_status_editor true (some 7) ⟨[(1, "Final")], [], [], [], []⟩
        1 "Final" "Final" 0 0).2 = some "Status has been updated to Final" := by
  decide

/-- Concrete instance of the same-status theorem: a bulk set of one Confirmed
session targeted at Confirmed is skipped, and the single editor on the same
store reports an update while the status value stays Confirmed. -/
theorem same_status_transition_witness :
    execute_group_approve_change true (some 7) (fun _ => false)
      ⟨[(1, "Confirmed")], [], [], [], []⟩
      [⟨1, "Confirmed", "WA 900", "AV001"⟩] "Confirmed" =
      (⟨[(1, "Confirmed")], [], [], [], []⟩, ⟨0, 1, 0⟩) ∧
    (render_status_editor true (some 7) ⟨[(1, "Confirmed")], [], [], [], []⟩
        1 "Confirmed" "Confirmed" 0 0).1.sessions = [(1, "Confirmed")] ∧
    (render_status_editor true (some 7) ⟨[(1, "Confirmed")], [], [], [], []⟩
        1 "Confirmed" "Confirmed" 0 0).1.audit =
      [] ++ [⟨1, "Confirmed", "Confirmed", some 7⟩] ∧
    (render_status_editor true (some 7) ⟨[(1, "Confirmed")], [], [], [], []⟩
        1 "Confirmed" "Confirmed" 0 0).2 =
      some ("Status has been updated to " ++ "Confirmed") :=
  same_status_transition true (some 7) (fun _ => false)
    ⟨[(1, "Confirmed")], [], [], [], []⟩
    [⟨1, "Confirmed", "WA 900", "AV001"⟩] "Confirmed" (by decide)
    1 "Confirmed" 0 0 (by decide) (by decide)

/-- C6: the bulk transition processes every session of the input set
independently (a failing update is counted and the loop continues), the
aggregated counts are exactly the per-session outcomes, and on the scenario
[Preliminary, Final, Confirmed] → Confirmed the counts are
updated = 2, skipped = 1, failed = 0. -/
theorem bulk_transition_counts (auditOk : Bool) (recorder : Option Nat)
    (fails : Nat → Bool) (db : DB) (l : List SessionInfo) (target : String) :
    (execute_group_approve_change auditOk recorder fails db l target).2 =
      ⟨l.countP (fun s => !(s.status == target) && !fails s.session_id),
       l.countP (fun s => s.status == target),
       l.countP (fun s => !(s.status == target) && fails s.session_id)⟩ ∧
    (execute_group_approve_change true none (fun _ => false)
        ⟨[(1, "Preliminary"), (2, "Final"), (3, "Confirmed")], [], [], [], []⟩
        [⟨1, "Preliminary", "R", "A"⟩, ⟨2, "Final", "R", "B"⟩,
         ⟨3, "Confirmed", "R", "C"⟩] "Confirmed").2 = ⟨2, 1, 0⟩ ∧
    (execute_group_approve_change true none (fun n => n == 1)
        ⟨[(1, "Preliminary"), (2, "Preliminary")], [], [], [], []⟩
        [⟨1, "Preliminary", "R", "A"⟩, ⟨2, "Preliminary", "R", "B"⟩]
        "Confirmed").2 = ⟨1, 0, 1⟩ ∧
    (execute_group_approve_change true none (fun n => n == 1)
        ⟨[(1, "Preliminary"), (2, "Preliminary")], [], [], [], []⟩
        [⟨1, "Preliminary", "R", "A"⟩, ⟨2, "Preliminary", "R", "B"⟩]
        "Confirmed").1.sessions = [(1, "Preliminary"), (2, "Confirmed")] := by
  refine ⟨?_, by decide, by decide, by decide⟩
  have hc := execGroup_counts auditOk recorder fails target l db ⟨0, 0, 0⟩
  simpa [execute_group_approve_change] using hc

/-- C9: every successful transition appends the audit record (session id, old
status, new status, changed_by); a failing audit insert only yields a warning,
the already-committed status update is kept, no audit row appears, the bulk
counts are identical with or without audit failures, and a transitioned
session is still counted as updated. -/
theorem audit_nonfatal (db : DB) (sid : Nat) (old new : String)
    (recorder : Option Nat) (fails : Nat → Bool) (h : old ≠ new) :
    (update_session_status true recorder db sid old new).1.audit =
      db.audit ++ [⟨sid, old, new, recorder⟩] ∧
    (update_session_status true recorder db sid old new).1.sessions =
      (setStatus db sid new).sessions ∧
    update_session_status false recorder db sid old new = (setStatus db sid new, true) ∧
    (∀ l : List SessionInfo,
      (execute_group_approve_change false recorder fails db l new).2 =
        (execute_group_approve_change true recorder fails db l new).2) ∧
    (execute_group_approve_change false recorder (fun _ => false) db
        [⟨sid, old, "R", "A"⟩] new).2 = ⟨1, 0, 0⟩ := by
  refine ⟨rfl, rfl, rfl, ?_, ?_⟩
  · intro l
    rw [execute_group_approve_change, execute_group_approve_change,
      execGroup_counts, execGroup_counts]
  · simp [execute_group_approve_change, execGroupStep, h]

/-- Concrete instance of the audit theorem: transitioning the sample session
from Final to Confirmed. -/
theorem audit_nonfatal_witness :
    (update_session_status true (some 7) dbSample 1 "Final" "Confirmed").1.audit =
      dbSample.audit ++ [⟨1, "Final", "Confirmed", some 7⟩] ∧
    (update_session_status true (some 7) dbSample 1 "Final" "Confirmed").1.sessions =
      (setStatus dbSample 1 "Confirmed").sessions ∧
    update_session_status false (some 7) dbSample 1 "Final" "Confirmed" =
      (setStatus dbSample 1 "Confirmed", true) ∧
    (∀ l : List SessionInfo,
      (execute_group_approve_change false (some 7) (fun _ => false) dbSample l
          "Confirmed").2 =
        (execute_group_approve_change true (some 7) (fun _ => false) dbSample l
          "Confirmed").2) ∧
    (execute_group_approve_change false (some 7) (fun _ => false) dbSample
        [⟨1, "Final", "R", "A"⟩] "Confirmed").2 = ⟨1, 0, 0⟩ :=
  audit_nonfatal dbSample 1 "Final" "Confirmed" (some 7) (fun _ => false) (by decide)

lemma find?_status_set (l : List (Nat × String)) (sid : Nat) (v : String) :
    ((l.map (fun p => if p.1 = sid then (p.1, v) else p)).find?
        (fun p => p.1 == sid)).map (·.2) =
      ((l.find? (fun p => p.1 == sid)).map (·.2)).map (fun _ => v) := by
  induction l with
  | nil => rfl
  | cons p l ih =>
    by_cases h : p.1 = sid
    · rw [List.map_cons, if_pos h,
        List.find?_cons_of_pos _ (by simp [h]), List.find?_cons_of_pos _ (by simp [h])]
      rfl
    · rw [List.map_cons, if_neg h,
        List.find?_cons_of_neg _ (by simp [h]), List.find?_cons_of_neg _ (by simp [h])]
      exact ih

lemma statusOf_setStatus (db : DB) (sid : Nat) (v : String) :
    statusOf (setStatus db sid v) sid = (statusOf db sid).map (fun _ => v) :=
  find?_status_set db.sessions sid v

lemma upsert_end_sessions (db : DB) (sid rid eno : Nat) (vs : List String) :
    (upsert_end db sid rid eno vs).sessions = db.sessions := by
  unfold upsert_end
  cases h : fetch_end_id db sid rid eno <;> simp [h]

lemma nav_submit_status (sid rid e maxE : Nat) (vals : List String)
    (st : EditorState) (db : DB) (editable : Bool) :
    statusOf (nav_callback sid rid e maxE vals st db editable .submit).2 sid =
      (statusOf db sid).map (fun _ => "Final") := by
  unfold nav_callback
  show statusOf (setStatus (if editable then upsert_end db sid rid e vals else db)
    sid "Final") sid = _
  rw [statusOf_setStatus]
  cases editable
  · rfl
  · unfold statusOf
    simp [upsert_end_sessions]

/-- C7: advancing past the current end increments `end_no` clamped to the
range's `ends_per_range`; on the last end of a non-final range the navigator
moves to the next range with `end_no` reset to 1; on the last end of the last
range a Submit button appears and submitting turns a Preliminary session
Final. -/
theorem navigator_forward (sid rid e epr ridx nr : Nat) (vals : List String)
    (st : EditorState) (db : DB) (editable : Bool) :
    (nav_callback sid rid e epr vals st db editable .next).1.end_no =
      min epr (e + 1) ∧
    (e < epr → forward_direction e epr ridx nr = .next ∧
      (nav_callback sid rid e epr vals st db editable .next).1.end_no = e + 1) ∧
    (e ≥ epr → ridx < nr - 1 →
      forward_direction e epr ridx nr = .next_range ∧
      (nav_callback sid rid e epr vals st db editable .next_range).1.range_idx =
        st.range_idx + 1 ∧
      (nav_callback sid rid e epr vals st db editable .next_range).1.end_no = 1) ∧
    (e ≥ epr → ridx ≥ nr - 1 →
      forward_direction e epr ridx nr = .submit ∧
      (statusOf db sid = some "Preliminary" →
        statusOf (nav_callback sid rid e epr vals st db editable .submit).2 sid =
          some "Final")) := by
  refine ⟨rfl, ?_, ?_, ?_⟩
  · intro h
    refine ⟨?_, ?_⟩
    · unfold forward_direction
      rw [if_neg (by omega)]
    · show min epr (e + 1) = e + 1
      omega
  · intro h1 h2
    refine ⟨?_, rfl, rfl⟩
    unfold forward_direction
    rw [if_pos h1, if_neg (by omega)]
  · intro h1 h2
    refine ⟨?_, ?_⟩
    · unfold forward_direction
      rw [if_pos h1, if_pos h2]
    · intro hp
      rw [nav_submit_status, hp]
      rfl

/-- Concrete instance of the navigator theorem: a round with 2 ranges of 6
ends, session 1 Preliminary in the sample-style store. -/
theorem navigator_forward_witness :
    ((2 : Nat) < 6 ∧ forward_direction 2 6 0 2 = .next ∧
      (nav_callback 1 4 2 6 ["M", "M", "M", "M", "M", "M"] ⟨1, 0, 2⟩
        ⟨[(1, "Preliminary")], [], [], [], []⟩ true .next).1.end_no = 3) ∧
    (forward_direction 6 6 0 2 = .next_range ∧
      (nav_callback 1 4 6 6 ["M", "M", "M", "M", "M", "M"] ⟨1, 0, 6⟩
        ⟨[(1, "Preliminary")], [], [], [], []⟩ true .next_range).1.range_idx = 1 ∧
      (nav_callback 1 4 6 6 ["M", "M", "M", "M", "M", "M"] ⟨1, 0, 6⟩
        ⟨[(1, "Preliminary")], [], [], [], []⟩ true .next_range).1.end_no = 1) ∧
    (forward_direction 6 6 1 2 = .submit ∧
      statusOf (nav_callback 1 5 6 6 ["M", "M", "M", "M", "M", "M"] ⟨1, 1, 6⟩
        ⟨[(1, "Preliminary")], [], [], [], []⟩ true .submit).2 1 = some "Final") := by
  refine ⟨⟨by decide, ?_⟩, ?_, ?_⟩
  · exact (navigator_forward 1 4 2 6 0 2 ["M", "M", "M", "M", "M", "M"] ⟨1, 0, 2⟩
      ⟨[(1, "Preliminary")], [], [], [], []⟩ true).2.1 (by decide)
  · exact (navigator_forward 1 4 6 6 0 2 ["M", "M", "M", "M", "M", "M"] ⟨1, 0, 6⟩
      ⟨[(1, "Preliminary")], [], [], [], []⟩ true).2.2.1 (by decide) (by decide)
  · refine ⟨((navigator_forward 1 5 6 6 1 2 ["M", "M", "M", "M", "M", "M"] ⟨1, 1, 6⟩
      ⟨[(1, "Preliminary")], [], [], [], []⟩ true).2.2.2 (by decide) (by decide)).1,
      ((navigator_forward 1 5 6 6 1 2 ["M", "M", "M", "M", "M", "M"] ⟨1, 1, 6⟩
      ⟨[(1, "Preliminary")], [], [], [], []⟩ true).2.2.2 (by decide) (by decide)).2
      (by decide)⟩

lemma sum_map_zero {α : Type} (l : List α) : (l.map (fun _ => (0 : Int))).sum = 0 := by
  induction l with
  | nil => rfl
  | cons a l ih => simp [ih]

lemma sum_map_add {α : Type} (f g : α → Int) (l : List α) :
    (l.map (fun x => f x + g x)).sum = (l.map f).sum + (l.map g).sum := by
  induction l with
  | nil => rfl
  | cons a l ih => simp [ih]; omega

lemma sum_swap {α β : Type} (f : α → β → Int) (l : List α) (m : List β) :
    (l.map (fun a => (m.map (f a)).sum)).sum =
      (m.map (fun b => (l.map (fun a => f a b)).sum)).sum := by
  induction l with
  | nil => simp [sum_map_zero]
  | cons a l ih =>
    rw [List.map_cons, List.sum_cons, ih, ← sum_map_add]
    exact congrArg List.sum (List.map_congr_left (fun b _ => by simp))

lemma filter_map_sum {α : Type} (p : α → Bool) (f : α → Int) (l : List α) :
    ((l.filter p).map f).sum = (l.map (fun x => if p x then f x else 0)).sum := by
  induction l with
  | nil => rfl
  | cons a l ih =>
    by_cases h : p a
    · simp [List.filter_cons, h, ih]
    · simp [List.filter_cons, h, ih]

lemma sql_eq_codec (v : String) (hv : v ∈ ARROW_CHOICES) :
    sql_arrow_score v = score_from_value (some v) := by
  fin_cases hv <;> decide

/-- C8: the SQL session total equals the sum over the session's end rows of
the end totals, where each end total is the sum of the codec scores of the
end's arrows (provided the stored arrow values are legal tokens); and the
end `["X","9","9","8","M","7"]` totals 43. -/
theorem session_total_decomposes (db : DB) (sid : Nat)
    (h : ∀ a ∈ db.arrows, ∀ e ∈ db.ends, a.end_id = e.id → e.session_id = sid →
      a.arrow_value ∈ ARROW_CHOICES) :
    compute_session_total db sid =
      ((db.ends.filter (fun e => e.session_id == sid)).map (fun e =>
        end_total ((db.arrows.filter (fun a => a.end_id == e.id)).map
          (·.arrow_value)))).sum ∧
    end_total ["X", "9", "9", "8", "M", "7"] = 43 := by
  refine ⟨?_, by decide⟩
  unfold compute_session_total
  rw [sum_swap]
  have hR : ((db.ends.filter (fun e => e.session_id == sid)).map (fun e =>
        end_total ((db.arrows.filter (fun a => a.end_id == e.id)).map
          (·.arrow_value)))).sum =
      (db.ends.map (fun e => if e.session_id == sid then
        end_total ((db.arrows.filter (fun a => a.end_id == e.id)).map
          (·.arrow_value)) else 0)).sum :=
    filter_map_sum _ _ _
  rw [hR]
  refine congrArg List.sum (List.map_congr_left (fun e he => ?_))
  by_cases hsid : e.session_id = sid
  · rw [if_pos (by simp [hsid])]
    unfold end_total
    rw [List.map_map]
    have hI : (((db.arrows.filter (fun a => a.end_id == e.id)).map
          ((fun v => score_from_value (some v)) ∘ (·.arrow_value)))).sum =
        (db.arrows.map (fun a => if a.end_id == e.id then
          score_from_value (some a.arrow_value) else 0)).sum :=
      filter_map_sum _ _ _
    rw [hI]
    refine congrArg List.sum (List.map_congr_left (fun a ha => ?_))
    by_cases hend : a.end_id = e.id
    · rw [if_pos ⟨hend, hsid⟩, if_pos (by simp [hend])]
      exact sql_eq_codec _ (h a ha e he hend hsid)
    · rw [if_neg (by tauto), if_neg (by simp [hend])]
  · rw [if_neg (by simp [hsid])]
    have hz : ∀ a ∈ db.arrows,
        (if a.end_id = e.id ∧ e.session_id = sid then sql_arrow_score a.arrow_value
         else 0) = (0 : Int) :=
      fun a _ => if_neg (by tauto)
    rw [List.map_congr_left hz, sum_map_zero]

/-- Concrete instance of the aggregation theorem on `dbTotals`: two ends of
valid tokens. -/
theorem session_total_decomposes_witness :
    compute_session_total dbTotals 1 =
      ((dbTotals.ends.filter (fun e => e.session_id == 1)).map (fun e =>
        end_total ((dbTotals.arrows.filter (fun a => a.end_id == e.id)).map
          (·.arrow_value)))).sum ∧
    end_total ["X", "9", "9", "8", "M", "7"] = 43 :=
  session_total_decomposes dbTotals 1 (by decide)

lemma filter_not_filter {α : Type} (p : α → Bool) (l : List α) :
    (l.filter (fun a => !(p a))).filter p = [] :=
  List.filter_eq_nil_iff.mpr (fun a ha => by
    have := (List.mem_filter.mp ha).2
    simp at this
    simp [this])

lemma filter_idem {α : Type} (q : α → Bool) (l : List α) :
    (l.filter q).filter q = l.filter q :=
  List.filter_eq_self.mpr (fun _ ha => (List.mem_filter.mp ha).2)

lemma filter_append_rows (A R : List ArrowRow) (i : Nat)
    (hr : ∀ r ∈ R, r.end_id = i) :
    (A.filter (fun a => !(a.end_id == i)) ++ R).filter (fun a => a.end_id == i) = R ∧
    (A.filter (fun a => !(a.end_id == i)) ++ R).filter (fun a => !(a.end_id == i)) =
      A.filter (fun a => !(a.end_id == i)) := by
  constructor
  · rw [List.filter_append, filter_not_filter, List.nil_append]
    exact List.filter_eq_self.mpr (fun a ha => by simp [hr a ha])
  · rw [List.filter_append, filter_idem]
    have hnil : R.filter (fun a => !(a.end_id == i)) = [] :=
      List.filter_eq_nil_iff.mpr (fun a ha => by simp [hr a ha])
    rw [hnil, List.append_nil]

lemma upsert_end_of_found (db : DB) (sid rid eno i : Nat) (vs6 : List String)
    (h : fetch_end_id db sid rid eno = some i) :
    upsert_end db sid rid eno vs6 =
      { db with arrows := db.arrows.filter (fun a => !(a.end_id == i)) ++
        vs6.enum.map (fun iv => ⟨i, iv.1 + 1, iv.2⟩) } := by
  unfold upsert_end
  rw [h]

lemma upsert_end_of_missing (db : DB) (sid rid eno : Nat) (vs6 : List String)
    (h : fetch_end_id db sid rid eno = none) :
    upsert_end db sid rid eno vs6 =
      { db with
        ends := db.ends ++ [⟨nextEndId db, sid, rid, eno⟩],
        arrows := db.arrows.filter (fun a => !(a.end_id == nextEndId db)) ++
          vs6.enum.map (fun iv => ⟨nextEndId db, iv.1 + 1, iv.2⟩) } := by
  unfold upsert_end
  rw [h]

lemma mem_enum_rows (i : Nat) (vs : List String) :
    ∀ r ∈ vs.enum.map (fun iv => (⟨i, iv.1 + 1, iv.2⟩ : ArrowRow)), r.end_id = i := by
  intro r hr
  obtain ⟨iv, _, rfl⟩ := List.mem_map.mp hr
  rfl

/-- C10: storing a six-value arrow list with `_upsert_end` and reading it back
with `_fetch_arrow_values` round-trips (empty/NULL values read back as `"M"`),
`_upsert_end` is idempotent, and afterwards the end holds exactly six arrow
rows. -/
theorem upsert_fetch_roundtrip (db : DB) (sid rid eno : Nat) (vs : List String)
    (hlen : vs.length = 6) :
    ∃ endId,
      fetch_end_id (upsert_end db sid rid eno vs) sid rid eno = some endId ∧
      fetch_arrow_values (upsert_end db sid rid eno vs) endId =
        vs.map (fun v => if v = "" then "M" else v) ∧
      upsert_end (upsert_end db sid rid eno vs) sid rid eno vs =
        upsert_end db sid rid eno vs ∧
      ((upsert_end db sid rid eno vs).arrows.filter
        (fun a => a.end_id == endId)).length = 6 := by
  match vs, hlen with
  | [v1, v2, v3, v4, v5, v6], _ =>
    cases hfe : fetch_end_id db sid rid eno with
    | some i =>
      have hup := upsert_end_of_found db sid rid eno i [v1, v2, v3, v4, v5, v6] hfe
      have harr : (upsert_end db sid rid eno [v1, v2, v3, v4, v5, v6]).arrows =
          db.arrows.filter (fun a => !(a.end_id == i)) ++
            [v1, v2, v3, v4, v5, v6].enum.map (fun iv => ⟨i, iv.1 + 1, iv.2⟩) := by
        rw [hup]
      have hfa := filter_append_rows db.arrows
        ([v1, v2, v3, v4, v5, v6].enum.map (fun iv => ⟨i, iv.1 + 1, iv.2⟩)) i
        (mem_enum_rows i [v1, v2, v3, v4, v5, v6])
      have h1 : fetch_end_id (upsert_end db sid rid eno [v1, v2, v3, v4, v5, v6])
          sid rid eno = some i := by
        rw [hup]
        exact hfe
      refine ⟨i, h1, ?_, ?_, ?_⟩
      · unfold fetch_arrow_values
        rw [harr, hfa.1]
        show (sortByArrowNo [⟨i, 1, v1⟩, ⟨i, 2, v2⟩, ⟨i, 3, v3⟩,
            ⟨i, 4, v4⟩, ⟨i, 5, v5⟩, ⟨i, 6, v6⟩]).foldl
          (fun values row => if 1 ≤ row.arrow_no && row.arrow_no ≤ 6 then
            values.set (row.arrow_no - 1)
              (if row.arrow_value = "" then "M" else row.arrow_value)
            else values) ["M", "M", "M", "M", "M", "M"] =
          [if v1 = "" then "M" else v1, if v2 = "" then "M" else v2,
           if v3 = "" then "M" else v3, if v4 = "" then "M" else v4,
           if v5 = "" then "M" else v5, if v6 = "" then "M" else v6]
        simp [sortByArrowNo, insertByNo]
      · have hup2 := upsert_end_of_found (upsert_end db sid rid eno
          [v1, v2, v3, v4, v5, v6]) sid rid eno i [v1, v2, v3, v4, v5, v6] h1
        rw [hup2, harr, hfa.2, hup]
      · rw [harr, hfa.1]
        rfl
    | none =>
      have hfind : db.ends.find? (fun e =>
          e.session_id == sid && e.round_range_id == rid && e.end_no == eno) = none :=
        Option.map_eq_none'.mp hfe
      have hup := upsert_end_of_missing db sid rid eno [v1, v2, v3, v4, v5, v6] hfe
      have harr : (upsert_end db sid rid eno [v1, v2, v3, v4, v5, v6]).arrows =
          db.arrows.filter (fun a => !(a.end_id == nextEndId db)) ++
            [v1, v2, v3, v4, v5, v6].enum.map
              (fun iv => ⟨nextEndId db, iv.1 + 1, iv.2⟩) := by
        rw [hup]
      have hends : (upsert_end db sid rid eno [v1, v2, v3, v4, v5, v6]).ends =
          db.ends ++ [⟨nextEndId db, sid, rid, eno⟩] := by
        rw [hup]
      have hfa := filter_append_rows db.arrows
        ([v1, v2, v3, v4, v5, v6].enum.map
          (fun iv => ⟨nextEndId db, iv.1 + 1, iv.2⟩)) (nextEndId db)
        (mem_enum_rows (nextEndId db) [v1, v2, v3, v4, v5, v6])
      have h1 : fetch_end_id (upsert_end db sid rid eno [v1, v2, v3, v4, v5, v6])
          sid rid eno = some (nextEndId db) := by
        unfold fetch_end_id
        rw [hends, List.find?_append, hfind]
        simp
      refine ⟨nextEndId db, h1, ?_, ?_, ?_⟩
      · unfold fetch_arrow_values
        rw [harr, hfa.1]
        show (sortByArrowNo [⟨nextEndId db, 1, v1⟩, ⟨nextEndId db, 2, v2⟩,
            ⟨nextEndId db, 3, v3⟩, ⟨nextEndId db, 4, v4⟩, ⟨nextEndId db, 5, v5⟩,
            ⟨nextEndId db, 6, v6⟩]).foldl
          (fun values row => if 1 ≤ row.arrow_no && row.arrow_no ≤ 6 then
            values.set (row.arrow_no - 1)
              (if row.arrow_value = "" then "M" else row.arrow_value)
            else values) ["M", "M", "M", "M", "M", "M"] =
          [if v1 = "" then "M" else v1, if v2 = "" then "M" else v2,
           if v3 = "" then "M" else v3, if v4 = "" then "M" else v4,
           if v5 = "" then "M" else v5, if v6 = "" then "M" else v6]
        simp [sortByArrowNo, insertByNo]
      · have hup2 := upsert_end_of_found (upsert_end db sid rid eno
          [v1, v2, v3, v4, v5, v6]) sid rid eno (nextEndId db)
          [v1, v2, v3, v4, v5, v6] h1
        rw [hup2, harr, hfa.2, hup]
      · rw [harr, hfa.1]
        rfl

/-- Concrete instance of the round-trip theorem: storing
`["X", "9", "", "8", "M", "7"]` on an empty store. -/
theorem upsert_fetch_roundtrip_witness :
    ∃ endId,
      fetch_end_id (upsert_end ⟨[], [], [], [], []⟩ 1 2 1
        ["X", "9", "", "8", "M", "7"]) 1 2 1 = some endId ∧
      fetch_arrow_values (upsert_end ⟨[], [], [], [], []⟩ 1 2 1
        ["X", "9", "", "8", "M", "7"]) endId =
        ["X", "9", "", "8", "M", "7"].map (fun v => if v = "" then "M" else v) ∧
      upsert_end (upsert_end ⟨[], [], [], [], []⟩ 1 2 1
        ["X", "9", "", "8", "M", "7"]) 1 2 1 ["X", "9", "", "8", "M", "7"] =
        upsert_end ⟨[], [], [], [], []⟩ 1 2 1 ["X", "9", "", "8", "M", "7"] ∧
      ((upsert_end ⟨[], [], [], [], []⟩ 1 2 1
        ["X", "9", "", "8", "M", "7"]).arrows.filter
          (fun a => a.end_id == endId)).length = 6 :=
  upsert_fetch_roundtrip ⟨[], [], [], [], []⟩ 1 2 1
    ["X", "9", "", "8", "M", "7"] (by decide)

end ArcheryClub
